import Mathlib

/-!
Verification of the peer-link session manager of this repository
(`PeerService`, the unnamed module importing `peerjs`): data model, the
chunked integrity-checked file-transfer protocol, the heartbeat/reconnection
machinery, and the transfer-record store operations.

The digest function (`calculateHash` in the source delegates to the
platform's `window.crypto.subtle.digest('SHA-256', ...)`) is modelled as an
abstract parameter `calculateHash : Bytes → String`; every property proved
here holds for an arbitrary digest function, and concrete runs instantiate
it with the executable stand-in `testHash`.

Timing-only fields of the source `FileTransfer` record (`speed`,
`remainingTime`, `lastModified`) are wall-clock derived and play no role in
any claim; they are omitted from the embedded record.
-/

namespace PeerSvc

/-- Bytes of an `ArrayBuffer` are modelled as a list of naturals. -/
abbrev Bytes := List Nat

/-! ## Association-list helpers

The source keeps per-key state in `Map`s (`this.fileData`, `this.reconnectAttempts`,
`this.connectionStates`, `this.reconnectTimeouts`) and in `localStorage` keyed by
`transfer_<id>`. All are modelled as association lists with these three
operations (get / set / delete). -/

def lookupEntry {α : Type} : List (String × α) → String → Option α
  | [], _ => none
  | (k', v) :: rest, k => if k' = k then some v else lookupEntry rest k

def setEntry {α : Type} : List (String × α) → String → α → List (String × α)
  | [], k, v => [(k, v)]
  | (k', v') :: rest, k, v =>
    if k' = k then (k, v) :: rest else (k', v') :: setEntry rest k v

def removeEntry {α : Type} : List (String × α) → String → List (String × α)
  | [], _ => []
  | (k', v') :: rest, k =>
    if k' = k then removeEntry rest k else (k', v') :: removeEntry rest k

/-! ## Data model (src types: `FileTransfer`) -/

/-- Transfer status. The source type union is
`'pending' | 'transferring' | 'completed' | 'error'`; `removeFile`
additionally emits a record cast to status `'removed'`. -/
inductive TStatus
  | pending
  | transferring
  | completed
  | error
  | removed
deriving DecidableEq

/-- `chunks: { total, transferred }` of the source `FileTransfer`. -/
structure ChunkCounters where
  total : Nat
  transferred : Nat
deriving DecidableEq

/-- The source `FileTransfer` record. `progress` is a percentage (a JS float
computed by exact small-integer ratios here modelled in `ℚ`); `hash` is the
hex digest string; `errorMsg` models the optional `error` field. -/
structure FileTransfer where
  id : String
  filename : String
  size : Nat
  progress : ℚ
  status : TStatus
  errorMsg : Option String
  mimeType : String
  chunks : ChunkCounters
  hash : String
deriving DecidableEq

/-- Receiver-side persistent state: the `localStorage` transfer records
(keys `transfer_<id>`), the `this.fileData` buffer map, and the sequence of
`transfer-update` events delivered via `notifyFileTransfer` (each event is
broadcast to every subscriber in subscription order). -/
structure Store where
  transfers : List (String × FileTransfer)
  fileData : List (String × Bytes)
  notified : List FileTransfer
deriving DecidableEq

def emptyStore : Store := ⟨[], [], []⟩

/-! ## Receiver protocol handlers (source lines 428-475) -/

/-- `handleFileStart`: store the announced transfer record and notify. -/
def handleFileStart (s : Store) (transfer : FileTransfer) : Store :=
  { s with
    transfers := setEntry s.transfers transfer.id transfer,
    notified := s.notified ++ [transfer] }

/-- The in-place update `handleFileChunk` performs on a transfer record after
appending a verified chunk: `transfer.chunks.transferred++` followed by
`transfer.progress = (transferred / total) * 100`. -/
def receiveChunkUpdate (transfer : FileTransfer) : FileTransfer :=
  { transfer with
    chunks := { transfer.chunks with transferred := transfer.chunks.transferred + 1 },
    progress := ((transfer.chunks.transferred + 1 : ℕ) : ℚ) / (transfer.chunks.total : ℚ) * 100 }

/-- `handleFileChunk`: recompute the chunk digest and compare with the claimed
one; on mismatch `throw new Error('Chunk integrity check failed')` — modelled
as `Except.error`, with no state change (the throw precedes every mutation).
Otherwise append the bytes to the accumulated buffer, bump the counters and
progress, persist and notify. A chunk for an unknown transfer id is dropped. -/
def handleFileChunk (calculateHash : Bytes → String) (s : Store)
    (fileId : String) (chunk : Bytes) (chunkHash : String) : Except String Store :=
  if calculateHash chunk ≠ chunkHash then
    Except.error "Chunk integrity check failed"
  else
    match lookupEntry s.transfers fileId with
    | none => Except.ok s
    | some transfer =>
      let newData := (lookupEntry s.fileData fileId).getD [] ++ chunk
      let transfer' := receiveChunkUpdate transfer
      Except.ok { s with
        fileData := setEntry s.fileData fileId newData,
        transfers := setEntry s.transfers fileId transfer',
        notified := s.notified ++ [transfer'] }

/-- `handleFileEnd`: compare the digest stored at `file-start`
(`transfer.hash`) against the digest carried by the `file-end` message.
Note: the source never recomputes a digest over the accumulated buffer —
`this.fileData` is not read here. -/
def handleFileEnd (s : Store) (fileId : String) (fileHash : String) : Store :=
  match lookupEntry s.transfers fileId with
  | none => s
  | some transfer =>
    let transfer' :=
      if transfer.hash ≠ fileHash then
        { transfer with status := TStatus.error, errorMsg := some "File integrity check failed" }
      else
        { transfer with status := TStatus.completed, progress := 100 }
    { s with
      transfers := setEntry s.transfers fileId transfer',
      notified := s.notified ++ [transfer'] }

/-! ## Store operations exposed to the presentation layer (source lines 523-546) -/

/-- `downloadFile`: throws `'File not found'` when no transfer record exists,
`'File data not found'` when no accumulated buffer exists; otherwise builds a
Blob from the buffer and triggers the browser download (modelled as returning
the record and the bytes). The transfer's `status` field is never examined. -/
def downloadFile (s : Store) (fileId : String) : Except String (FileTransfer × Bytes) :=
  match lookupEntry s.transfers fileId with
  | none => Except.error "File not found"
  | some transfer =>
    match lookupEntry s.fileData fileId with
    | none => Except.error "File data not found"
    | some fileData => Except.ok (transfer, fileData)

/-- The object `removeFile` notifies with: `{ id: fileId, status: 'removed' }
as FileTransfer`. The other fields are absent (`undefined`) in the source; the
claims only mention `id` and `status`, so defaults stand in for them. -/
def removedNotification (fileId : String) : FileTransfer :=
  { id := fileId, filename := "", size := 0, progress := 0, status := TStatus.removed,
    errorMsg := none, mimeType := "", chunks := ⟨0, 0⟩, hash := "" }

/-- `removeFile`: `localStorage.removeItem`, `this.fileData.delete`, then
notify every subscriber with the removed-status object. None of the three
steps can throw, for present or absent ids alike. -/
def removeFile (s : Store) (fileId : String) : Store :=
  { s with
    transfers := removeEntry s.transfers fileId,
    fileData := removeEntry s.fileData fileId,
    notified := s.notified ++ [removedNotification fileId] }

/-! ## Sender (source `sendFile`, lines 267-357) -/

/-- `const CHUNK_SIZE = 512 * 1024`. -/
def CHUNK_SIZE : Nat := 512 * 1024

/-- `Math.ceil(file.size / CHUNK_SIZE)` over naturals. -/
def ceilChunks (size : Nat) : Nat := (size + CHUNK_SIZE - 1) / CHUNK_SIZE

/-- The `readNextChunk` loop of `sendFile`: starting at `offset`, while
`offset < size` emit the pair (offset, length of `file.slice(offset,
offset + CHUNK_SIZE)`) and advance `offset` by the chunk's byte length.
Structural recursion on a fuel counter; every emitted chunk covers at least
one byte and all but the last cover `CHUNK_SIZE` bytes, so
`size / CHUNK_SIZE + 1` units of fuel always suffice (proved below). -/
def sendChunksF : Nat → Nat → Nat → List (Nat × Nat)
  | 0, _, _ => []
  | fuel + 1, size, offset =>
    if offset < size then
      (offset, min CHUNK_SIZE (size - offset)) ::
        sendChunksF fuel size (offset + min CHUNK_SIZE (size - offset))
    else []

/-- The (offset, length) chunk plan `sendFile` produces for a file of
`size` bytes. -/
def sendChunks (size : Nat) : List (Nat × Nat) :=
  sendChunksF (size / CHUNK_SIZE + 1) size 0

/-- `file.slice(offset, offset + len)` on byte lists. -/
def slice (content : Bytes) (offset len : Nat) : Bytes := (content.drop offset).take len

/-- The transfer descriptor `sendFile` builds and announces in `file-start`. -/
def mkTransfer (calculateHash : Bytes → String) (fileId filename mimeType : String)
    (content : Bytes) : FileTransfer :=
  { id := fileId, filename := filename, size := content.length, progress := 0,
    status := TStatus.transferring, errorMsg := none, mimeType := mimeType,
    chunks := { total := ceilChunks content.length, transferred := 0 },
    hash := calculateHash content }

/-- The message kinds dispatched by the `conn.on('data')` handler
(source lines 394-409), with the fields each carries on the wire. -/
inductive WireMsg
  | heartbeat (timestamp : Nat)
  | heartbeatAck (timestamp : Nat)
  | disconnectMsg (reason : String)
  | fileStart (transfer : FileTransfer)
  | fileChunk (fileId : String) (data : Bytes) (offset : Nat) (hash : String)
  | fileEnd (fileId : String) (hash : String)
deriving DecidableEq

/-- The full message sequence `sendFile` emits on the channel for one file:
`file-start` with the descriptor (whole-file digest computed up front), one
`file-chunk` per chunk of the plan with that chunk's own digest, then
`file-end` restating the whole-file digest. -/
def sendFileMsgs (calculateHash : Bytes → String) (fileId filename mimeType : String)
    (content : Bytes) : List WireMsg :=
  WireMsg.fileStart (mkTransfer calculateHash fileId filename mimeType content) ::
    ((sendChunks content.length).map fun p =>
      WireMsg.fileChunk fileId (slice content p.1 p.2) p.1 (calculateHash (slice content p.1 p.2)))
    ++ [WireMsg.fileEnd fileId (calculateHash content)]

/-- The per-chunk progress values `sendFile` computes on its side:
`(offset / file.size) * 100` with `offset` already advanced past the chunk.
(The source samples these no faster than every 100 ms; the reported events
are a subsequence of this list, so monotonicity/bounds of this list carry
over to the reported events.) -/
def senderProgressSeq (size : Nat) : List ℚ :=
  (sendChunks size).map fun p => (((p.1 + p.2 : ℕ) : ℚ) / (size : ℚ)) * 100

/-- The receiver's side of a connection consuming a list of inbound file
messages in order, starting from store `s`. A thrown chunk-integrity error
rejects inside that message's async callback; it mutates nothing and later
`data` events are still handled (source: the throw is an unhandled promise
rejection; the connection and its handler survive). Heartbeat, ack and
disconnect messages do not touch the store. -/
def runReceiver (calculateHash : Bytes → String) (s : Store) : List WireMsg → Store
  | [] => s
  | WireMsg.fileStart t :: ms => runReceiver calculateHash (handleFileStart s t) ms
  | WireMsg.fileChunk fid data _ h :: ms =>
    match handleFileChunk calculateHash s fid data h with
    | Except.ok s' => runReceiver calculateHash s' ms
    | Except.error _ => runReceiver calculateHash s ms
  | WireMsg.fileEnd fid h :: ms => runReceiver calculateHash (handleFileEnd s fid h) ms
  | _ :: ms => runReceiver calculateHash s ms

/-- Executable stand-in digest used to instantiate the abstract
`calculateHash` parameter in concrete runs (the real digest, SHA-256, is
provided by the platform, not by this repository). Distinct small byte lists
used in the concrete runs below get distinct strings. -/
def testHash (b : Bytes) : String :=
  Nat.repr (b.foldl (fun a n => a * 257 + n + 1) 0)

/-! ## Session manager / liveness state (source fields, lines 15-25) -/

/-- One entry of `this.connectionStates`. -/
structure ConnState where
  isConnecting : Bool
  lastError : Option String
deriving DecidableEq

/-- The per-service mutable state relevant to connection liveness and
reconnection: the `connections` map (modelled by its key set), the
`reconnectAttempts`, `connectionStates` and `reconnectTimeouts` maps
(`reconnectTimeouts` by its key set: which peers have a live backoff timer),
the `connection-status` events delivered via `notifyConnectionStatus`
(peerId, connected flag, reason), and the transfer store. -/
structure ServiceState where
  connections : List String
  reconnectAttempts : List (String × Nat)
  connectionStates : List (String × ConnState)
  reconnectTimeouts : List String
  statusEvents : List (String × Bool × Option String)
  store : Store
deriving DecidableEq

/-- `private readonly MAX_RECONNECT_ATTEMPTS = 5`. -/
def MAX_RECONNECT_ATTEMPTS : Nat := 5

/-- `handleConnection` (lines 391-426): record the connection in
`this.connections`, fire a connected status event. (Handler registration and
`updatePeersList` have no state of their own to model.) -/
def handleConnection (s : ServiceState) (peerId : String) : ServiceState :=
  { s with
    connections := if s.connections.contains peerId then s.connections else s.connections ++ [peerId],
    statusEvents := s.statusEvents ++ [(peerId, true, none)] }

/-- The `conn.on('data')` dispatch (lines 394-409) applied to one inbound
message: returns the new state and the replies sent on the channel.
`heartbeat` is answered immediately with `heartbeat-ack` carrying the same
timestamp; `disconnect` fires a disconnected status event and closes the
connection; the three file messages go to the transfer handlers. There is no
branch for `heartbeat-ack`: it falls through every `else if` and is ignored. -/
def handleData (calculateHash : Bytes → String) (peerId : String)
    (s : ServiceState) : WireMsg → ServiceState × List WireMsg
  | WireMsg.heartbeat ts => (s, [WireMsg.heartbeatAck ts])
  | WireMsg.disconnectMsg reason =>
    ({ s with
       statusEvents := s.statusEvents ++ [(peerId, false, some reason)],
       connections := s.connections.erase peerId }, [])
  | WireMsg.fileStart t => ({ s with store := handleFileStart s.store t }, [])
  | WireMsg.fileChunk fid data _ h =>
    match handleFileChunk calculateHash s.store fid data h with
    | Except.ok st => ({ s with store := st }, [])
    | Except.error _ => (s, [])
  | WireMsg.fileEnd fid h => ({ s with store := handleFileEnd s.store fid h }, [])
  | WireMsg.heartbeatAck _ => (s, [])

/-- The test of the 5-second watch armed by `startHeartbeat` (lines 157-161):
when it fires, it calls `handleConnectionTimeout(peerId)` iff
`this.connections.has(peerId) && this.connectionStates.get(peerId)?.lastError
!== 'heartbeat-timeout'`. Nothing a `heartbeat-ack` does can change either
conjunct, so the watch outcome is independent of whether the peer answered. -/
def heartbeatWatchFires (s : ServiceState) (peerId : String) : Bool :=
  s.connections.contains peerId &&
    !((lookupEntry s.connectionStates peerId).map ConnState.lastError == some (some "heartbeat-timeout"))

/-- The synchronous result of one invocation of `tryReconnect`. -/
inductive ReconnectOutcome
  | skippedConnecting
  | maxReached
  | connected
  | failedScheduled (delay : Nat)
deriving DecidableEq

/-- One invocation of `tryReconnect(peerId)` (lines 213-256), with the result
of its inner `await this.connect(peerId)` supplied as `connectOk`:
clear any pending backoff timer; bail out if a reconnect is in progress;
if the attempt counter has reached `MAX_RECONNECT_ATTEMPTS`, emit the
terminal "Max reconnection attempts reached" event and stop; otherwise mark
connecting, bump the counter, attempt the connection; on success delete the
counter and clear the error; on failure record the error and schedule the
next invocation after `Math.min(1000 * 2 ** attempts, 30000)` ms, `attempts`
being the value read before the bump. -/
def tryReconnectStep (s : ServiceState) (peerId : String) (connectOk : Bool) :
    ServiceState × ReconnectOutcome :=
  let s0 := { s with reconnectTimeouts := s.reconnectTimeouts.erase peerId }
  let state := (lookupEntry s0.connectionStates peerId).getD ⟨false, none⟩
  if state.isConnecting then (s0, ReconnectOutcome.skippedConnecting)
  else
    let attempts := (lookupEntry s0.reconnectAttempts peerId).getD 0
    if attempts ≥ MAX_RECONNECT_ATTEMPTS then
      ({ s0 with
         statusEvents := s0.statusEvents ++ [(peerId, false, some "Max reconnection attempts reached")] },
       ReconnectOutcome.maxReached)
    else
      let s1 := { s0 with
        connectionStates := setEntry s0.connectionStates peerId { state with isConnecting := true },
        reconnectAttempts := setEntry s0.reconnectAttempts peerId (attempts + 1) }
      if connectOk then
        let s2 := handleConnection s1 peerId
        ({ s2 with
           reconnectAttempts := removeEntry s2.reconnectAttempts peerId,
           connectionStates := setEntry s2.connectionStates peerId ⟨false, none⟩ },
         ReconnectOutcome.connected)
      else
        ({ s1 with
           connectionStates := setEntry s1.connectionStates peerId
             { isConnecting := false, lastError := some "connect failed" },
           reconnectTimeouts := s1.reconnectTimeouts ++ [peerId] },
         ReconnectOutcome.failedScheduled (min (1000 * 2 ^ attempts) 30000))

/-- `handleConnectionTimeout(peerId)` (lines 167-175): record
`lastError = 'heartbeat-timeout'` if a connection state exists, emit a
`Connection timeout` status event, then call `tryReconnect(peerId)`
synchronously — with no scheduled delay before that first attempt. -/
def handleConnectionTimeout (s : ServiceState) (peerId : String) (connectOk : Bool) :
    ServiceState × ReconnectOutcome :=
  let s1 :=
    match lookupEntry s.connectionStates peerId with
    | some st =>
      { s with connectionStates := setEntry s.connectionStates peerId { st with lastError := some "heartbeat-timeout" } }
    | none => s
  let s2 := { s1 with statusEvents := s1.statusEvents ++ [(peerId, false, some "Connection timeout")] }
  tryReconnectStep s2 peerId connectOk

/-- `connect(remotePeerId)` (lines 371-389), with the channel outcome
supplied as `channelOk`: it throws `'Peer not initialized'` when
`this.peer` is null, and otherwise dials `remotePeerId` unconditionally —
the function performs no comparison of `remotePeerId` against the local
peer's own identifier. On channel open it runs `handleConnection` and
resolves; on channel error it rejects. -/
def connectAttempt (peerInitialized : Bool) (s : ServiceState) (remotePeerId : String)
    (channelOk : Bool) : Except String ServiceState :=
  if peerInitialized = false then Except.error "Peer not initialized"
  else if channelOk then Except.ok (handleConnection s remotePeerId)
  else Except.error "connection error"

/-- `handleConnect` of the application layer (App component, lines 52-67):
returns whether `peerService.connect` is invoked, and the toast error text
shown instead when the target equals the current user's own id. -/
def handleConnect (currentUserId : Option String) (remotePeerId : String) :
    Bool × Option String :=
  if currentUserId = some remotePeerId then (false, some "You can\x27t connect to yourself!")
  else (true, none)

/-- Iterated failing invocations of `tryReconnect` for one peer. -/
def failReconnects : ServiceState → String → Nat → ServiceState
  | s, _, 0 => s
  | s, pid, n + 1 => failReconnects (tryReconnectStep s pid false).1 pid n

/-- The trace of a reconnection round in which every connection attempt
fails: each entry is (backoff delay waited before this invocation of
`tryReconnect`, whether the invocation executed a connection attempt).
The first invocation is triggered synchronously (delay 0); each failing
invocation schedules the next after the delay it computed; the capped
invocation executes no attempt and schedules nothing, ending the round. -/
def reconnectFailTrace : ServiceState → String → Nat → Nat → List (Nat × Bool)
  | _, _, _, 0 => []
  | s, pid, pendingDelay, n + 1 =>
    match tryReconnectStep s pid false with
    | (s', ReconnectOutcome.failedScheduled d) =>
      (pendingDelay, true) :: reconnectFailTrace s' pid d n
    | (_, ReconnectOutcome.maxReached) => [(pendingDelay, false)]
    | (_, ReconnectOutcome.skippedConnecting) => [(pendingDelay, false)]
    | (_, ReconnectOutcome.connected) => [(pendingDelay, true)]

/-- A freshly connected service state for one peer: the connection is open
and its connection state carries no error, no reconnect bookkeeping exists. -/
def connectedState (peerId : String) : ServiceState :=
  { connections := [peerId], reconnectAttempts := [],
    connectionStates := [(peerId, ⟨false, none⟩)],
    reconnectTimeouts := [], statusEvents := [], store := emptyStore }

/-! ## Concrete fixtures used by counterexample runs -/

/-- The progress percentages of the `transfer-update` events emitted so far,
in emission order. -/
def progressList (s : Store) : List ℚ := s.notified.map FileTransfer.progress

/-- In-transit corruption of a transfer: every chunk payload is replaced by
`f` applied to it, while all structured fields — including every claimed
digest — are untouched. -/
def corruptPayloads (f : Bytes → Bytes) : WireMsg → WireMsg
  | WireMsg.fileChunk fid data off h => WireMsg.fileChunk fid (f data) off h
  | m => m

/-- The sender's message sequence for the one-byte file `[1]`, with the
chunk payload altered to `[2]` in transit (claimed digests intact). -/
def tamperedMsgs : List WireMsg :=
  (sendFileMsgs testHash "f" "a.bin" "application/octet-stream" [1]).map
    (corruptPayloads fun _ => [2])

/-- A transfer record announcing a 2-chunk plan, as stored after its
`file-start`. (The receiver's chunk handler never inspects sizes, so a small
stand-in payload exercises exactly the same code path as a real >512 KiB
file.) -/
def twoChunkTransfer : FileTransfer :=
  { id := "f", filename := "a.bin", size := 2, progress := 0,
    status := TStatus.transferring, errorMsg := none,
    mimeType := "application/octet-stream", chunks := ⟨2, 0⟩,
    hash := testHash [1, 2] }

/-- Receiver run for the C1 scenario: `file-start`, then a chunk whose
recomputed digest mismatches its claimed digest, then a well-formed chunk
for the same transfer id. -/
def mismatchThenGoodRun : Store :=
  runReceiver testHash emptyStore
    [WireMsg.fileStart twoChunkTransfer,
     WireMsg.fileChunk "f" [9] 0 (testHash [1]),
     WireMsg.fileChunk "f" [2] 1 (testHash [2])]

/-- A store holding a transfer record in `error` status together with a
received byte buffer for the same id. -/
def erroredStoreWithData : Store :=
  ⟨[("f", { twoChunkTransfer with status := TStatus.error })], [("f", [7])], []⟩

/-! ## Association-list lemmas -/

theorem lookupEntry_setEntry_self {α : Type} (l : List (String × α)) (k : String) (v : α) :
    lookupEntry (setEntry l k v) k = some v := by
  induction l with
  | nil => simp [setEntry, lookupEntry]
  | cons p rest ih =>
    obtain ⟨k', v'⟩ := p
    by_cases h : k' = k
    · simp [setEntry, lookupEntry, h]
    · simp [setEntry, lookupEntry, h, ih]

theorem lookupEntry_removeEntry_self {α : Type} (l : List (String × α)) (k : String) :
    lookupEntry (removeEntry l k) k = none := by
  induction l with
  | nil => simp [removeEntry, lookupEntry]
  | cons p rest ih =>
    obtain ⟨k', v'⟩ := p
    by_cases h : k' = k
    · simp [removeEntry, h, ih]
    · simp [removeEntry, lookupEntry, h, ih]

/-! ## Chunk-plan lemmas (sender loop, `sendFile`) -/

theorem CHUNK_SIZE_pos : 0 < CHUNK_SIZE := by decide

theorem sendChunksF_sum (fuel : Nat) : ∀ size offset, size - offset ≤ fuel * CHUNK_SIZE →
    ((sendChunksF fuel size offset).map Prod.snd).sum = size - offset := by
  induction fuel with
  | zero =>
    intro size offset h
    simp only [sendChunksF, List.map_nil, List.sum_nil]
    omega
  | succ n ih =>
    intro size offset h
    by_cases hlt : offset < size
    · have hC := CHUNK_SIZE_pos
      rw [sendChunksF, if_pos hlt, List.map_cons, List.sum_cons,
        ih size (offset + min CHUNK_SIZE (size - offset))
          (by simp only [CHUNK_SIZE] at h ⊢; omega)]
      omega
    · rw [sendChunksF, if_neg hlt]
      simp only [List.map_nil, List.sum_nil]
      omega

theorem sendChunksF_length (fuel : Nat) : ∀ size offset, size - offset ≤ fuel * CHUNK_SIZE →
    (sendChunksF fuel size offset).length = (size - offset + CHUNK_SIZE - 1) / CHUNK_SIZE := by
  induction fuel with
  | zero =>
    intro size offset h
    simp only [sendChunksF, List.length_nil, CHUNK_SIZE]
    omega
  | succ n ih =>
    intro size offset h
    have hC := CHUNK_SIZE_pos
    by_cases hlt : offset < size
    · rw [sendChunksF, if_pos hlt, List.length_cons,
        ih size (offset + min CHUNK_SIZE (size - offset))
          (by simp only [CHUNK_SIZE] at h ⊢; omega)]
      simp only [CHUNK_SIZE] at *
      omega
    · rw [sendChunksF, if_neg hlt]
      simp only [List.length_nil, CHUNK_SIZE]
      omega

theorem sendChunksF_head (fuel size offset : Nat) (p : Nat × Nat)
    (h : (sendChunksF fuel size offset).head? = some p) : p.1 = offset := by
  cases fuel with
  | zero => simp [sendChunksF] at h
  | succ n =>
    by_cases hlt : offset < size
    · rw [sendChunksF, if_pos hlt, List.head?_cons] at h
      cases h
      rfl
    · rw [sendChunksF, if_neg hlt] at h
      simp at h

/-- Adjacent chunks of the plan: the next chunk starts exactly where the
previous one ended. -/
theorem sendChunksF_chain_adj (fuel : Nat) : ∀ size offset,
    (sendChunksF fuel size offset).Chain' (fun p q => q.1 = p.1 + p.2) := by
  induction fuel with
  | zero => intro size offset; simp [sendChunksF]
  | succ n ih =>
    intro size offset
    by_cases hlt : offset < size
    · rw [sendChunksF, if_pos hlt]
      rw [List.chain'_cons']
      refine ⟨?_, ih size (offset + min CHUNK_SIZE (size - offset))⟩
      intro q hq
      exact sendChunksF_head _ _ _ _ hq
    · rw [sendChunksF, if_neg hlt]
      exact List.chain'_nil

/-- Every chunk of the plan fits inside the file. -/
theorem sendChunksF_mem_le (fuel : Nat) : ∀ size offset p,
    p ∈ sendChunksF fuel size offset → offset ≤ p.1 ∧ 0 < p.2 ∧ p.1 + p.2 ≤ size := by
  induction fuel with
  | zero => intro size offset p hp; simp [sendChunksF] at hp
  | succ n ih =>
    intro size offset p hp
    have hC := CHUNK_SIZE_pos
    by_cases hlt : offset < size
    · rw [sendChunksF, if_pos hlt, List.mem_cons] at hp
      rcases hp with hp | hp
      · subst hp
        refine ⟨le_refl _, ?_, ?_⟩ <;> simp only [] <;> omega
      · have := ih size (offset + min CHUNK_SIZE (size - offset)) p hp
        omega
    · rw [sendChunksF, if_neg hlt] at hp
      simp at hp

theorem sendChunks_fuel_ok (size : Nat) : size - 0 ≤ (size / CHUNK_SIZE + 1) * CHUNK_SIZE := by
  simp only [CHUNK_SIZE]
  omega

theorem sendChunks_sum (size : Nat) : ((sendChunks size).map Prod.snd).sum = size := by
  have := sendChunksF_sum (size / CHUNK_SIZE + 1) size 0 (sendChunks_fuel_ok size)
  simpa [sendChunks] using this

theorem sendChunks_length (size : Nat) : (sendChunks size).length = ceilChunks size := by
  have := sendChunksF_length (size / CHUNK_SIZE + 1) size 0 (sendChunks_fuel_ok size)
  simpa [sendChunks, ceilChunks] using this

theorem sendChunksF_offsets_strict (fuel : Nat) : ∀ size offset,
    ((sendChunksF fuel size offset).map Prod.fst).Chain' (· < ·) := by
  induction fuel with
  | zero => intro size offset; simp [sendChunksF]
  | succ n ih =>
    intro size offset
    by_cases hlt : offset < size
    · rw [sendChunksF, if_pos hlt, List.map_cons, List.chain'_cons']
      refine ⟨?_, ih size (offset + min CHUNK_SIZE (size - offset))⟩
      intro b hb
      rw [List.head?_map, Option.mem_def, Option.map_eq_some'] at hb
      obtain ⟨q, hq, hqb⟩ := hb
      have hq1 := sendChunksF_head _ _ _ _ hq
      have hC := CHUNK_SIZE_pos
      subst hqb
      omega
    · rw [sendChunksF, if_neg hlt]
      simp

/-- Offsets are strictly increasing along the plan. -/
theorem sendChunks_offsets_strict (size : Nat) :
    ((sendChunks size).map Prod.fst).Chain' (· < ·) :=
  sendChunksF_offsets_strict (size / CHUNK_SIZE + 1) size 0

/-! ## Receiver-run lemmas -/

theorem runReceiver_append (ch : Bytes → String) (xs ys : List WireMsg) : ∀ s : Store,
    runReceiver ch s (xs ++ ys) = runReceiver ch (runReceiver ch s xs) ys := by
  induction xs with
  | nil => intro s; rfl
  | cons m xs ih =>
    intro s
    cases m with
    | heartbeat ts => simp only [List.cons_append, runReceiver]; exact ih _
    | heartbeatAck ts => simp only [List.cons_append, runReceiver]; exact ih _
    | disconnectMsg r => simp only [List.cons_append, runReceiver]; exact ih _
    | fileStart t => simp only [List.cons_append, runReceiver]; exact ih _
    | fileEnd fid h => simp only [List.cons_append, runReceiver]; exact ih _
    | fileChunk fid data off h =>
      simp only [List.cons_append, runReceiver]
      cases hc : handleFileChunk ch s fid data h with
      | ok s' => simp only [hc]; exact ih _
      | error e => simp only [hc]; exact ih _

theorem receiveChunkUpdate_iterate (t : FileTransfer) (k : Nat) :
    (receiveChunkUpdate^[k] t).chunks.transferred = t.chunks.transferred + k ∧
    (receiveChunkUpdate^[k] t).chunks.total = t.chunks.total ∧
    (receiveChunkUpdate^[k] t).hash = t.hash ∧
    (receiveChunkUpdate^[k] t).id = t.id ∧
    (0 < k → (receiveChunkUpdate^[k] t).progress =
      ((t.chunks.transferred + k : ℕ) : ℚ) / (t.chunks.total : ℚ) * 100) := by
  induction k with
  | zero => simp
  | succ n ih =>
    obtain ⟨h1, h2, h3, h4, _⟩ := ih
    rw [Function.iterate_succ_apply']
    refine ⟨?_, ?_, ?_, ?_, ?_⟩
    · simp only [receiveChunkUpdate, h1]; omega
    · simp only [receiveChunkUpdate, h2]
    · simp only [receiveChunkUpdate, h3]
    · simp only [receiveChunkUpdate, h4]
    · intro _
      simp only [receiveChunkUpdate, h1, h2]
      push_cast
      ring_nf

/-- Processing a list of chunk messages whose claimed digests match their
payloads, for a transfer currently on record: every chunk is accepted, the
record's counter advances once per chunk, and one `transfer-update` event
per chunk is appended, carrying the successive updated records. -/
theorem runReceiver_chunks (ch : Bytes → String) (fid : String) :
    ∀ (ds : List (Bytes × Nat)) (s : Store) (t : FileTransfer),
      lookupEntry s.transfers fid = some t →
      lookupEntry (runReceiver ch s
          (ds.map fun d => WireMsg.fileChunk fid d.1 d.2 (ch d.1))).transfers fid
        = some (receiveChunkUpdate^[ds.length] t) ∧
      (runReceiver ch s (ds.map fun d => WireMsg.fileChunk fid d.1 d.2 (ch d.1))).notified
        = s.notified ++ (List.range ds.length).map (fun i => receiveChunkUpdate^[i + 1] t) := by
  intro ds
  induction ds with
  | nil =>
    intro s t ht
    simpa [runReceiver] using ht
  | cons d ds ih =>
    intro s t ht
    have hstep : handleFileChunk ch s fid d.1 (ch d.1) = Except.ok
        { s with
          fileData := setEntry s.fileData fid ((lookupEntry s.fileData fid).getD [] ++ d.1),
          transfers := setEntry s.transfers fid (receiveChunkUpdate t),
          notified := s.notified ++ [receiveChunkUpdate t] } := by
      rw [handleFileChunk, if_neg (fun hne => hne rfl), ht]
    rw [List.map_cons]
    simp only [runReceiver, hstep]
    obtain ⟨ha, hb⟩ := ih
      { s with
        fileData := setEntry s.fileData fid ((lookupEntry s.fileData fid).getD [] ++ d.1),
        transfers := setEntry s.transfers fid (receiveChunkUpdate t),
        notified := s.notified ++ [receiveChunkUpdate t] }
      (receiveChunkUpdate t) (lookupEntry_setEntry_self _ _ _)
    refine ⟨?_, ?_⟩
    · rw [ha, List.length_cons, ← Function.iterate_succ_apply]
    · rw [hb]
      simp only [List.length_cons, List.range_succ_eq_map, List.map_cons, List.map_map]
      rw [Function.iterate_one]
      simp only [List.append_assoc, List.cons_append, List.nil_append, List.singleton_append]
      have hfun : (fun i => receiveChunkUpdate^[i + 1] (receiveChunkUpdate t)) =
          ((fun i => receiveChunkUpdate^[i + 1] t) ∘ Nat.succ) := by
        funext i
        rw [Function.comp_apply, ← Function.iterate_succ_apply]
      rw [hfun]

/-- A full uncorrupted run: the receiver consumes exactly the message
sequence `sendFile` emits. Every chunk passes verification; the
`transfer-update` events are the `file-start` record, one bumped record per
chunk, and the final completed record with progress 100. -/
theorem runReceiver_protocol (ch : Bytes → String) (fid fname mime : String) (content : Bytes) :
    (runReceiver ch emptyStore (sendFileMsgs ch fid fname mime content)).notified =
      mkTransfer ch fid fname mime content ::
        ((List.range (ceilChunks content.length)).map
          (fun i => receiveChunkUpdate^[i + 1] (mkTransfer ch fid fname mime content)))
        ++ [{ receiveChunkUpdate^[ceilChunks content.length] (mkTransfer ch fid fname mime content) with
              status := TStatus.completed, progress := 100 }] := by
  have hmsgs : (sendChunks content.length).map
      (fun p => WireMsg.fileChunk fid (slice content p.1 p.2) p.1 (ch (slice content p.1 p.2))) =
      ((sendChunks content.length).map (fun p => (slice content p.1 p.2, p.1))).map
        (fun d => WireMsg.fileChunk fid d.1 d.2 (ch d.1)) := by
    rw [List.map_map]
    rfl
  rw [sendFileMsgs]
  simp only [runReceiver, List.append_eq]
  rw [runReceiver_append, hmsgs]
  have hstart : lookupEntry (handleFileStart emptyStore
      (mkTransfer ch fid fname mime content)).transfers fid =
      some (mkTransfer ch fid fname mime content) :=
    lookupEntry_setEntry_self [] fid (mkTransfer ch fid fname mime content)
  obtain ⟨ha, hb⟩ := runReceiver_chunks ch fid
    ((sendChunks content.length).map (fun p => (slice content p.1 p.2, p.1)))
    (handleFileStart emptyStore (mkTransfer ch fid fname mime content))
    (mkTransfer ch fid fname mime content) hstart
  rw [List.length_map, sendChunks_length] at ha hb
  have hhash : (receiveChunkUpdate^[ceilChunks content.length]
      (mkTransfer ch fid fname mime content)).hash = ch content :=
    (receiveChunkUpdate_iterate (mkTransfer ch fid fname mime content)
      (ceilChunks content.length)).2.2.1
  simp only [runReceiver, handleFileEnd, ha, if_neg (not_ne_iff.mpr hhash)]
  rw [hb]
  rfl

/-- Shape of mapping a field over an event list of the protocol's form;
stated over variables so that its instantiations stay cheap to check. -/
theorem map_progress_shape (t0 e : FileTransfer) (g : Nat → FileTransfer) (T : Nat) :
    (t0 :: (List.range T).map g ++ [e]).map FileTransfer.progress =
      t0.progress :: ((List.range T).map (FileTransfer.progress ∘ g)) ++ [e.progress] := by
  simp only [List.map_cons, List.map_append, List.map_map, List.map_nil]

/-- The progress percentages of the `transfer-update` events of a full
uncorrupted run, in emission order. -/
theorem runReceiver_protocol_progress (ch : Bytes → String) (fid fname mime : String)
    (content : Bytes) :
    (runReceiver ch emptyStore (sendFileMsgs ch fid fname mime content)).notified.map
        FileTransfer.progress =
      (0 : ℚ) :: ((List.range (ceilChunks content.length)).map
        fun i => ((i + 1 : ℕ) : ℚ) / ((ceilChunks content.length : ℕ) : ℚ) * 100) ++ [100] := by
  have hfun : (FileTransfer.progress ∘ fun i =>
      receiveChunkUpdate^[i + 1] (mkTransfer ch fid fname mime content)) =
      fun i => ((i + 1 : ℕ) : ℚ) / ((ceilChunks content.length : ℕ) : ℚ) * 100 := by
    funext i
    have hpr := (receiveChunkUpdate_iterate (mkTransfer ch fid fname mime content) (i + 1)).2.2.2.2
      (Nat.succ_pos i)
    rw [Function.comp_apply, hpr]
    simp only [mkTransfer, Nat.zero_add]
  rw [runReceiver_protocol, map_progress_shape, hfun]
  rfl

/-- Monotonicity of lists of the receiver's progress shape. -/
theorem progressShape_chain (T : Nat) :
    ((0 : ℚ) :: ((List.range T).map fun i => ((i + 1 : ℕ) : ℚ) / ((T : ℕ) : ℚ) * 100)
      ++ [100]).Chain' (· ≤ ·) := by
  cases T with
  | zero =>
    simp only [List.range_zero, List.map_nil, List.singleton_append]
    rw [List.chain'_cons]
    exact ⟨by norm_num, List.chain'_singleton 100⟩
  | succ m =>
    rw [List.chain'_append]
    refine ⟨?_, List.chain'_singleton 100, ?_⟩
    · rw [List.chain'_cons']
      constructor
      · intro b hb
        rw [List.head?_map, Option.mem_def, Option.map_eq_some'] at hb
        obtain ⟨j, _, hj⟩ := hb
        subst hj
        positivity
      · rw [List.chain'_map, List.chain'_range_succ]
        intro j hj
        have hT : (0 : ℚ) < ((m + 1 : ℕ) : ℚ) := by exact_mod_cast Nat.succ_pos m
        apply mul_le_mul_of_nonneg_right _ (by norm_num : (0 : ℚ) ≤ 100)
        rw [div_le_div_iff_of_pos_right hT]
        exact_mod_cast Nat.le_succ (j + 1)
    · intro x hx y hy
      simp only [List.head?_cons, Option.mem_def, Option.some_inj] at hy
      subst hy
      rw [List.range_succ, List.map_append, ← List.cons_append, List.map_cons, List.map_nil,
        List.getLast?_concat, Option.mem_def, Option.some_inj] at hx
      subst hx
      have hne : ((m + 1 : ℕ) : ℚ) ≠ 0 := by exact_mod_cast Nat.succ_ne_zero m
      rw [div_self hne, one_mul]

/-- Boundedness of lists of the receiver's progress shape. -/
theorem progressShape_le (T : Nat) :
    ∀ q ∈ ((0 : ℚ) :: ((List.range T).map fun i => ((i + 1 : ℕ) : ℚ) / ((T : ℕ) : ℚ) * 100)
      ++ [100]), q ≤ 100 := by
  intro q hq
  rw [List.mem_append, List.mem_cons, List.mem_map] at hq
  rcases hq with (hq | ⟨i, hi, hq⟩) | hq
  · subst hq; norm_num
  · subst hq
    rw [List.mem_range] at hi
    have hT : (0 : ℚ) < ((T : ℕ) : ℚ) := by
      have h0 : 0 < T := Nat.lt_of_le_of_lt (Nat.zero_le i) hi
      exact_mod_cast h0
    have hle : ((i + 1 : ℕ) : ℚ) ≤ ((T : ℕ) : ℚ) := by exact_mod_cast hi
    have h1 : ((i + 1 : ℕ) : ℚ) / ((T : ℕ) : ℚ) ≤ 1 := (div_le_one hT).mpr hle
    calc ((i + 1 : ℕ) : ℚ) / ((T : ℕ) : ℚ) * 100 ≤ 1 * 100 := by
          apply mul_le_mul_of_nonneg_right h1
          norm_num
      _ = 100 := one_mul 100
  · rw [List.mem_singleton] at hq
    subst hq
    exact le_refl 100

/-! ## Sender-side progress lemmas -/

theorem senderProgressSeq_chain (size : Nat) : (senderProgressSeq size).Chain' (· ≤ ·) := by
  rw [senderProgressSeq, List.chain'_map]
  refine List.Chain'.imp ?_ (sendChunksF_chain_adj (size / CHUNK_SIZE + 1) size 0)
  intro p q hpq
  apply mul_le_mul_of_nonneg_right _ (by norm_num : (0 : ℚ) ≤ 100)
  rcases Nat.eq_zero_or_pos size with h0 | hpos
  · subst h0
    simp
  · have hT : (0 : ℚ) < ((size : ℕ) : ℚ) := by exact_mod_cast hpos
    rw [div_le_div_iff_of_pos_right hT]
    exact_mod_cast (by omega : p.1 + p.2 ≤ q.1 + q.2)

theorem senderProgressSeq_le (size : Nat) : ∀ q ∈ senderProgressSeq size, q ≤ 100 := by
  intro q hq
  rw [senderProgressSeq, List.mem_map] at hq
  obtain ⟨p, hp, hq⟩ := hq
  subst hq
  rw [sendChunks] at hp
  obtain ⟨-, hpos, hle⟩ := sendChunksF_mem_le (size / CHUNK_SIZE + 1) size 0 p hp
  have hsize : 0 < size := by omega
  have hT : (0 : ℚ) < ((size : ℕ) : ℚ) := by exact_mod_cast hsize
  have hle' : ((p.1 + p.2 : ℕ) : ℚ) ≤ ((size : ℕ) : ℚ) := by exact_mod_cast hle
  have h1 : ((p.1 + p.2 : ℕ) : ℚ) / ((size : ℕ) : ℚ) ≤ 1 := (div_le_one hT).mpr hle'
  calc ((p.1 + p.2 : ℕ) : ℚ) / ((size : ℕ) : ℚ) * 100 ≤ 1 * 100 := by
        apply mul_le_mul_of_nonneg_right h1
        norm_num
    _ = 100 := one_mul 100

/-! ## Claims -/

/-- C1, counterexample: after a chunk whose recomputed digest mismatches the
claimed one, `handleFileChunk` throws (`Chunk integrity check failed`) but
the transfer does NOT move to `status=error` — it stays `transferring` — and
a subsequent chunk for the same transfer id IS accepted (the counter advances
and its bytes are stored). This refutes the claim that a mismatch sets
`status=error` and halts further chunk acceptance. -/
theorem c1_counterexample :
    handleFileChunk testHash (handleFileStart emptyStore twoChunkTransfer) "f" [9] (testHash [1])
      = Except.error "Chunk integrity check failed" ∧
    (lookupEntry mismatchThenGoodRun.transfers "f").map FileTransfer.status ≠ some TStatus.error ∧
    (lookupEntry mismatchThenGoodRun.transfers "f").map FileTransfer.status
      = some TStatus.transferring ∧
    (lookupEntry mismatchThenGoodRun.transfers "f").map (fun t => t.chunks.transferred) = some 1 ∧
    lookupEntry mismatchThenGoodRun.fileData "f" = some [2] := by
  refine ⟨rfl, ?_, ?_, ?_, ?_⟩ <;> decide

/-- C1, amended: on `file-chunk`, the receiver recomputes the chunk's digest
and compares it to the claimed `chunkDigest`; on mismatch the chunk is
rejected by a thrown `Chunk integrity check failed` error, which leaves all
transfer state unchanged (no `status=error`, no `transfer-update` event) and
does not halt further chunk acceptance: processing continues with the
remaining messages exactly as if the corrupt chunk had never arrived. -/
theorem c1_amended_chunk_mismatch (ch : Bytes → String) (s : Store) (fid : String)
    (data : Bytes) (claimed : String) (h : ch data ≠ claimed) :
    handleFileChunk ch s fid data claimed = Except.error "Chunk integrity check failed" ∧
    ∀ (off : Nat) (ms : List WireMsg),
      runReceiver ch s (WireMsg.fileChunk fid data off claimed :: ms) = runReceiver ch s ms := by
  have herr : handleFileChunk ch s fid data claimed =
      Except.error "Chunk integrity check failed" := by
    rw [handleFileChunk, if_pos h]
  refine ⟨herr, fun off ms => ?_⟩
  simp only [runReceiver, herr]

theorem c1_amended_chunk_mismatch_witness :
    testHash [9] ≠ testHash [1] ∧
    handleFileChunk testHash emptyStore "f" [9] (testHash [1]) =
      Except.error "Chunk integrity check failed" :=
  ⟨by decide, (c1_amended_chunk_mismatch testHash emptyStore "f" [9] (testHash [1]) (by decide)).1⟩

/-- C2, code evaluated at the failing input: a single-chunk transfer of the
byte `[1]` whose chunk payload is altered to `[2]` in transit. The corrupted
chunk is rejected (so the buffer stays empty), yet `handleFileEnd` — which
compares the `file-start` digest against the `file-end` digest and never
recomputes anything over the accumulated buffer — finishes the transfer with
`status=completed` and `progress=100`, not `status=error` as the claim
requires. -/
theorem c2_file_end_skips_buffer_digest :
    (lookupEntry (runReceiver testHash emptyStore tamperedMsgs).transfers "f").map
        FileTransfer.status = some TStatus.completed ∧
    (lookupEntry (runReceiver testHash emptyStore tamperedMsgs).transfers "f").map
        FileTransfer.progress = some 100 ∧
    lookupEntry (runReceiver testHash emptyStore tamperedMsgs).fileData "f" = none ∧
    testHash [2] ≠ testHash [1] := by
  refine ⟨?_, ?_, ?_, ?_⟩ <;> decide

/-- C3: chunks are emitted in strictly increasing offset order, the chunk
sizes sum to the file size, the chunk count is `ceil(size / 512 KiB)`, and a
1,500,000-byte file yields exactly three `file-chunk` messages at offsets 0,
524288 and 1048576 followed by a `file-end` message. -/
theorem c3_chunking_rule :
    (∀ size : Nat, ((sendChunks size).map Prod.snd).sum = size) ∧
    (∀ size : Nat, (sendChunks size).length = (size + CHUNK_SIZE - 1) / CHUNK_SIZE) ∧
    (∀ size : Nat, ((sendChunks size).map Prod.fst).Chain' (· < ·)) ∧
    sendChunks 1500000 = [(0, 524288), (524288, 524288), (1048576, 451424)] ∧
    (∀ (ch : Bytes → String) (fid fname mime : String) (content : Bytes),
      content.length = 1500000 →
      sendFileMsgs ch fid fname mime content =
        WireMsg.fileStart (mkTransfer ch fid fname mime content) ::
        WireMsg.fileChunk fid (slice content 0 524288) 0 (ch (slice content 0 524288)) ::
        WireMsg.fileChunk fid (slice content 524288 524288) 524288
          (ch (slice content 524288 524288)) ::
        WireMsg.fileChunk fid (slice content 1048576 451424) 1048576
          (ch (slice content 1048576 451424)) ::
        [WireMsg.fileEnd fid (ch content)]) := by
  have hconc : sendChunks 1500000 = [(0, 524288), (524288, 524288), (1048576, 451424)] := by
    decide
  refine ⟨sendChunks_sum, fun size => by rw [sendChunks_length]; rfl,
    sendChunks_offsets_strict, hconc, ?_⟩
  intro ch fid fname mime content hlen
  rw [sendFileMsgs, hlen, hconc]
  rfl

theorem c3_chunking_rule_witness :
    (List.replicate 1500000 (0 : Nat)).length = 1500000 ∧
    sendFileMsgs testHash "f" "a.bin" "application/octet-stream"
        (List.replicate 1500000 (0 : Nat)) =
      WireMsg.fileStart (mkTransfer testHash "f" "a.bin" "application/octet-stream"
        (List.replicate 1500000 (0 : Nat))) ::
      WireMsg.fileChunk "f" (slice (List.replicate 1500000 (0 : Nat)) 0 524288) 0
        (testHash (slice (List.replicate 1500000 (0 : Nat)) 0 524288)) ::
      WireMsg.fileChunk "f" (slice (List.replicate 1500000 (0 : Nat)) 524288 524288) 524288
        (testHash (slice (List.replicate 1500000 (0 : Nat)) 524288 524288)) ::
      WireMsg.fileChunk "f" (slice (List.replicate 1500000 (0 : Nat)) 1048576 451424) 1048576
        (testHash (slice (List.replicate 1500000 (0 : Nat)) 1048576 451424)) ::
      [WireMsg.fileEnd "f" (testHash (List.replicate 1500000 (0 : Nat)))] :=
  ⟨by rw [List.length_replicate], c3_chunking_rule.2.2.2.2 testHash "f" "a.bin"
    "application/octet-stream" (List.replicate 1500000 (0 : Nat)) (by rw [List.length_replicate])⟩

/-- C4, counterexample: in a reconnection round where every attempt fails,
the backoff delays actually waited before the five executed attempts are
`0, 1000, 2000, 4000, 8000` ms — attempt 1 is invoked synchronously with no
delay — not `1000, 2000, 4000, 8000, 16000` ms as the claim states. (The
16000 ms timer exists, but the invocation it wakes is the capped one, which
executes no attempt.) -/
theorem c4_counterexample :
    ((reconnectFailTrace (connectedState "p") "p" 0 10).filter (fun e => e.2)).map Prod.fst
      = [0, 1000, 2000, 4000, 8000] ∧
    ((reconnectFailTrace (connectedState "p") "p" 0 10).filter (fun e => e.2)).map Prod.fst
      ≠ [1000, 2000, 4000, 8000, 16000] := by
  refine ⟨?_, ?_⟩ <;> decide

/-- C4, amended: the delay `tryReconnect` schedules after the n-th
consecutive failed attempt (attempt counter `a = n - 1` read before the
bump) is `min(1000 * 2^a, 30000)` ms and precedes attempt n+1; hence in an
all-failing round the invocations run with prior delays
`0, 1000, 2000, 4000, 8000` ms for attempts 1-5, and the final 16000 ms
timer wakes only the capped invocation, which attempts nothing. -/
theorem c4_amended_backoff_schedule (s : ServiceState) (pid : String) (a : Nat)
    (hnc : ((lookupEntry s.connectionStates pid).getD ⟨false, none⟩).isConnecting = false)
    (ha : (lookupEntry s.reconnectAttempts pid).getD 0 = a)
    (hlt : a < MAX_RECONNECT_ATTEMPTS) :
    (tryReconnectStep s pid false).2 = ReconnectOutcome.failedScheduled (min (1000 * 2 ^ a) 30000) ∧
    reconnectFailTrace (connectedState "p") "p" 0 10 =
      [(0, true), (1000, true), (2000, true), (4000, true), (8000, true), (16000, false)] := by
  constructor
  · have hnge : ¬ a ≥ MAX_RECONNECT_ATTEMPTS := by omega
    rw [tryReconnectStep]
    simp only [hnc, Bool.false_eq_true, if_false, ha, hnge]
  · decide

theorem c4_amended_backoff_schedule_witness :
    ((lookupEntry (connectedState "p").connectionStates "p").getD
        ⟨false, none⟩).isConnecting = false ∧
    (lookupEntry (connectedState "p").reconnectAttempts "p").getD 0 = 0 ∧
    (0 : Nat) < MAX_RECONNECT_ATTEMPTS ∧
    (tryReconnectStep (connectedState "p") "p" false).2 =
      ReconnectOutcome.failedScheduled (min (1000 * 2 ^ 0) 30000) :=
  ⟨by decide, by decide, by decide,
    (c4_amended_backoff_schedule (connectedState "p") "p" 0 (by decide) (by decide) (by decide)).1⟩

/-- C5, code evaluated at the failing input: a connected peer answers a
heartbeat. The receiver does reply to `heartbeat` with an immediate
`heartbeat-ack` carrying the same timestamp, but receiving that ack changes
nothing — the data dispatch has no `heartbeat-ack` branch — and the armed
5-second watch (which only tests connection presence and
`lastError !== 'heartbeat-timeout'`) still fires, running
`handleConnectionTimeout` and scheduling reconnection, even though the ack
arrived well before the 5000 ms expiry. This refutes the claim that a timely
ack prevents the peer from being declared heartbeat-timed-out. -/
theorem c5_ack_never_clears_watch :
    (handleData testHash "p" (connectedState "p") (WireMsg.heartbeat 0)).2
      = [WireMsg.heartbeatAck 0] ∧
    handleData testHash "p" (connectedState "p") (WireMsg.heartbeatAck 0)
      = (connectedState "p", []) ∧
    heartbeatWatchFires
      (handleData testHash "p" (connectedState "p") (WireMsg.heartbeatAck 0)).1 "p" = true ∧
    (handleConnectionTimeout
      (handleData testHash "p" (connectedState "p") (WireMsg.heartbeatAck 0)).1 "p" false).2
      = ReconnectOutcome.failedScheduled 1000 := by
  exact ⟨rfl, rfl, rfl, rfl⟩

/-- C6, counterexample: with an initialized peer, `connect` applied to the
caller's own identifier (here the caller's id is `"me"`) does not reject
with any invalid-target error — the local identity never enters `connect`'s
control flow — and on channel-open it registers a PeerLink for the self id
and fires a connected event. -/
theorem c6_counterexample :
    connectAttempt true (connectedState "q") "me" true =
      Except.ok (handleConnection (connectedState "q") "me") ∧
    (handleConnection (connectedState "q") "me").connections.contains "me" = true ∧
    (handleConnection (connectedState "q") "me").statusEvents = [("me", true, none)] := by
  exact ⟨rfl, rfl, rfl⟩

/-- C6, amended: the self-target guard lives in the application layer, not
in the session manager. The UI's `handleConnect` refuses a target equal to
the current user's id with the message `You can't connect to yourself!` and
never invokes `connect` (so no PeerLink is created), and calls `connect` for
any other target; the core `connect` itself performs no self-target
comparison — its outcome is the same function of the channel result for
every target id, its only synchronous failure being `Peer not initialized`. -/
theorem c6_amended_self_check_in_ui :
    (∀ uid : String, handleConnect (some uid) uid =
      (false, some "You can\x27t connect to yourself!")) ∧
    (∀ uid rid : String, uid ≠ rid → handleConnect (some uid) rid = (true, none)) ∧
    (∀ (s : ServiceState) (rid : String) (ok : Bool),
      connectAttempt true s rid ok =
        if ok then Except.ok (handleConnection s rid) else Except.error "connection error") ∧
    (∀ (s : ServiceState) (rid : String) (ok : Bool),
      connectAttempt false s rid ok = Except.error "Peer not initialized") := by
  refine ⟨fun uid => ?_, fun uid rid h => ?_, fun s rid ok => ?_, fun s rid ok => ?_⟩
  · rw [handleConnect, if_pos rfl]
  · rw [handleConnect, if_neg (by simp [h])]
  · cases ok <;> rfl
  · rfl

theorem c6_amended_self_check_in_ui_witness :
    "a" ≠ "b" ∧ handleConnect (some "a") "b" = (true, none) :=
  ⟨by decide, c6_amended_self_check_in_ui.2.1 "a" "b" (by decide)⟩

/-- C7, counterexample: after five consecutive failed reconnection attempts
(and the capped sixth invocation), a successful manual `connect` leaves the
peer's `reconnectAttempts` counter at 5 — it is not reset — so the very next
`tryReconnect` after a later link loss is immediately capped and performs no
attempt. This refutes the claim that the surviving record lets a later
manual connect reset the counter. -/
theorem c7_counterexample :
    (connectAttempt true (failReconnects (connectedState "p") "p" 6) "p" true).map
        (fun s => lookupEntry s.reconnectAttempts "p") = Except.ok (some 5) ∧
    (connectAttempt true (failReconnects (connectedState "p") "p" 6) "p" true).map
        (fun s => (tryReconnectStep s "p" false).2) = Except.ok ReconnectOutcome.maxReached := by
  exact ⟨rfl, rfl⟩

/-- C7, amended: once the attempt counter has reached
`MAX_RECONNECT_ATTEMPTS` (5), an invocation of `tryReconnect` emits the
terminal `Max reconnection attempts reached` status event, clears the
pending backoff timer, executes no connection attempt and schedules nothing
further; the per-peer records remain. The counter is deleted only by a
successful `tryReconnect`; a manual `connect` never touches it. -/
theorem c7_amended_cap_behavior (s : ServiceState) (pid : String) (ok : Bool)
    (hnc : ((lookupEntry s.connectionStates pid).getD ⟨false, none⟩).isConnecting = false)
    (hge : (lookupEntry s.reconnectAttempts pid).getD 0 ≥ MAX_RECONNECT_ATTEMPTS) :
    tryReconnectStep s pid ok =
      ({ s with reconnectTimeouts := s.reconnectTimeouts.erase pid,
                statusEvents := s.statusEvents ++
                  [(pid, false, some "Max reconnection attempts reached")] },
       ReconnectOutcome.maxReached) ∧
    (∀ (init : Bool) (s' : ServiceState) (rid : String) (chOk : Bool) (s'' : ServiceState),
      connectAttempt init s' rid chOk = Except.ok s'' →
      s''.reconnectAttempts = s'.reconnectAttempts) ∧
    (∀ (s' : ServiceState) (pid' : String),
      ((lookupEntry s'.connectionStates pid').getD ⟨false, none⟩).isConnecting = false →
      (lookupEntry s'.reconnectAttempts pid').getD 0 < MAX_RECONNECT_ATTEMPTS →
      lookupEntry (tryReconnectStep s' pid' true).1.reconnectAttempts pid' = none) := by
  refine ⟨?_, ?_, ?_⟩
  · rw [tryReconnectStep]
    simp only [hnc, Bool.false_eq_true, if_false, hge, if_true]
  · intro init s' rid chOk s'' h
    cases init
    · exact absurd h (by rw [connectAttempt]; simp)
    · cases chOk
      · exact absurd h (by rw [connectAttempt]; simp)
      · rw [connectAttempt] at h
        simp only [Bool.true_eq_false, if_false, if_true, Except.ok.injEq] at h
        subst h
        rfl
  · intro s' pid' hnc' hlt'
    have hge' : ¬ (lookupEntry s'.reconnectAttempts pid').getD 0 ≥ MAX_RECONNECT_ATTEMPTS := by
      omega
    rw [tryReconnectStep]
    simp only [hnc', Bool.false_eq_true, if_false, hge', if_true]
    exact lookupEntry_removeEntry_self _ _

theorem c7_amended_cap_behavior_witness :
    ((lookupEntry (failReconnects (connectedState "p") "p" 5).connectionStates "p").getD
        ⟨false, none⟩).isConnecting = false ∧
    (lookupEntry (failReconnects (connectedState "p") "p" 5).reconnectAttempts "p").getD 0
      ≥ MAX_RECONNECT_ATTEMPTS ∧
    tryReconnectStep (failReconnects (connectedState "p") "p" 5) "p" false =
      ({ failReconnects (connectedState "p") "p" 5 with
         reconnectTimeouts :=
           (failReconnects (connectedState "p") "p" 5).reconnectTimeouts.erase "p",
         statusEvents := (failReconnects (connectedState "p") "p" 5).statusEvents ++
           [("p", false, some "Max reconnection attempts reached")] },
       ReconnectOutcome.maxReached) :=
  ⟨by decide, by decide,
    (c7_amended_cap_behavior (failReconnects (connectedState "p") "p" 5) "p" false
      (by decide) (by decide)).1⟩

/-- C8: progress is monotonically non-decreasing and never exceeds 100, on
both sides. On the sender, the per-chunk progress values
`(offset / size) * 100` form a non-decreasing list bounded by 100 (the
sampled `transfer-update` events are a subsequence of this list). On the
receiver, for a full run of the protocol over any file content and any
digest function, the progress values of the successive `transfer-update`
events form a non-decreasing list bounded by 100. -/
theorem c8_progress_monotone :
    (∀ size : Nat, (senderProgressSeq size).Chain' (· ≤ ·) ∧
      ∀ q ∈ senderProgressSeq size, q ≤ 100) ∧
    (∀ (ch : Bytes → String) (fid fname mime : String) (content : Bytes),
      (progressList (runReceiver ch emptyStore
        (sendFileMsgs ch fid fname mime content))).Chain' (· ≤ ·) ∧
      ∀ q ∈ progressList (runReceiver ch emptyStore
        (sendFileMsgs ch fid fname mime content)), q ≤ 100) := by
  refine ⟨fun size => ⟨senderProgressSeq_chain size, senderProgressSeq_le size⟩, ?_⟩
  intro ch fid fname mime content
  constructor
  · rw [progressList, runReceiver_protocol_progress]
    exact progressShape_chain _
  · rw [progressList, runReceiver_protocol_progress]
    exact progressShape_le _

theorem c8_progress_monotone_witness :
    (senderProgressSeq 1500000).Chain' (· ≤ ·) ∧
    (progressList (runReceiver testHash emptyStore
      (sendFileMsgs testHash "f" "a.bin" "application/octet-stream" [1]))).Chain' (· ≤ ·) ∧
    (0 : ℚ) ≤ 100 :=
  ⟨(c8_progress_monotone.1 1500000).1,
   (c8_progress_monotone.2 testHash "f" "a.bin" "application/octet-stream" [1]).1,
   (c8_progress_monotone.2 testHash "f" "a.bin" "application/octet-stream" [1]).2 0 (by decide)⟩

/-- C9, counterexample: `downloadFile` succeeds on a transfer whose record
has `status=error` as long as a record and a buffer exist for the id — the
status is never examined — refuting the claim that it succeeds only for
`status=completed` records. -/
theorem c9_counterexample :
    downloadFile erroredStoreWithData "f" =
      Except.ok ({ twoChunkTransfer with status := TStatus.error }, [7]) ∧
    ({ twoChunkTransfer with status := TStatus.error } : FileTransfer).status
      ≠ TStatus.completed := by
  exact ⟨rfl, by decide⟩

/-- C9, amended: `downloadFile(transferId)` fails with `File not found` iff
no transfer record exists for the id, fails with `File data not found` when
a record exists but no buffer does, and succeeds whenever both a record and
a buffer exist — regardless of the record's status. -/
theorem c9_amended_download_checks (s : Store) (fid : String) :
    (downloadFile s fid = Except.error "File not found" ↔
      lookupEntry s.transfers fid = none) ∧
    (∀ (t : FileTransfer) (b : Bytes), lookupEntry s.transfers fid = some t →
      lookupEntry s.fileData fid = some b → downloadFile s fid = Except.ok (t, b)) ∧
    (∀ t : FileTransfer, lookupEntry s.transfers fid = some t →
      lookupEntry s.fileData fid = none →
      downloadFile s fid = Except.error "File data not found") := by
  refine ⟨⟨?_, ?_⟩, ?_, ?_⟩
  · intro h
    cases ht : lookupEntry s.transfers fid with
    | none => rfl
    | some t =>
      cases hd : lookupEntry s.fileData fid with
      | none =>
        simp only [downloadFile, ht, hd, Except.error.injEq] at h
        exact absurd h (by decide)
      | some b =>
        simp only [downloadFile, ht, hd] at h
        exact Except.noConfusion h
  · intro h
    simp [downloadFile, h]
  · intro t b ht hd
    simp [downloadFile, ht, hd]
  · intro t ht hd
    simp [downloadFile, ht, hd]

theorem c9_amended_download_checks_witness :
    lookupEntry erroredStoreWithData.transfers "f" =
      some { twoChunkTransfer with status := TStatus.error } ∧
    lookupEntry erroredStoreWithData.fileData "f" = some [7] ∧
    downloadFile erroredStoreWithData "f" =
      Except.ok ({ twoChunkTransfer with status := TStatus.error }, [7]) :=
  ⟨rfl, rfl, (c9_amended_download_checks erroredStoreWithData "f").2.1
    { twoChunkTransfer with status := TStatus.error } [7] rfl rfl⟩

/-- C10: `removeFile(fileId)` is total for every store and every id, known
or unknown: it deletes the transfer record and the received byte buffer when
present (afterwards neither is found), and always appends exactly one
notification — broadcast to every file-transfer subscriber — whose `id` is
`fileId` and whose `status` is `removed`. -/
theorem c10_remove_file_total (s : Store) (fileId : String) :
    lookupEntry (removeFile s fileId).transfers fileId = none ∧
    lookupEntry (removeFile s fileId).fileData fileId = none ∧
    (removeFile s fileId).notified = s.notified ++ [removedNotification fileId] ∧
    (removedNotification fileId).id = fileId ∧
    (removedNotification fileId).status = TStatus.removed :=
  ⟨lookupEntry_removeEntry_self _ _, lookupEntry_removeEntry_self _ _, rfl, rfl, rfl⟩

end PeerSvc
